import Mathlib

/-!
Shallow embedding of the airweave simple converters
(`backend/airweave/platform/converters/simple_{pdf,docx,pptx}_converter.py`).

The converters share one batch-aggregation shape:

```python
results = await asyncio.gather(*tasks, return_exceptions=True)
output = {}
for path, result in zip(paths, results):
    if isinstance(result, Exception):
        output[path] = None
    else:
        output[path] = result
success_count = sum(1 for v in output.values() if v is not None)
```

We model a per-file conversion as a function `α → Except ε String` (`.error`
stands for a raised exception, captured by `gather(..., return_exceptions=True)`),
and the Python dict as an insertion-ordered association list with distinct keys,
updated with last-writer-wins semantics exactly as `output[path] = ...` does.

Python string operations (`strip`, `join`, `split`, `replace`, `startswith`,
`int(...)`) are embedded as executable functions over the character list of a
`String`, following Python semantics.
-/

/-! ### Python string primitives -/

/-- Python `str.isspace` characters relevant to `str.strip()`. -/
def pyIsSpace (c : Char) : Bool :=
  c == ' ' || c == '\t' || c == '\n' || c == '\r' || c == '\x0b' || c == '\x0c'

/-- Python `s.strip()`: remove leading and trailing whitespace. -/
def pyStrip (s : String) : String :=
  String.mk (((s.data.dropWhile pyIsSpace).reverse.dropWhile pyIsSpace).reverse)

/-- Python `sep.join(parts)`. -/
def pyJoin (sep : String) : List String → String
  | [] => ""
  | [part] => part
  | part :: parts => part ++ sep ++ pyJoin sep parts

/-- Left-to-right non-overlapping split on a separator, with fuel (one unit
per examined character position; the initial fuel `s.length` always
suffices). -/
def pySplitAux (sep : List Char) : Nat → List Char → List Char → List (List Char)
  | _, [], acc => [acc.reverse]
  | 0, rest, acc => [acc.reverse ++ rest]
  | fuel + 1, c :: rest, acc =>
      if sep.isPrefixOf (c :: rest) then
        acc.reverse :: pySplitAux sep fuel ((c :: rest).drop sep.length) []
      else
        pySplitAux sep fuel rest (c :: acc)

/-- Python `s.split(sep)` for a non-empty separator. -/
def pySplit (s sep : String) : List String :=
  (pySplitAux sep.data s.data.length s.data []).map String.mk

/-- Left-to-right non-overlapping replacement, with fuel. -/
def pyReplaceAux (old new : List Char) : Nat → List Char → List Char
  | _, [] => []
  | 0, rest => rest
  | fuel + 1, c :: rest =>
      if old.isPrefixOf (c :: rest) then
        new ++ pyReplaceAux old new fuel ((c :: rest).drop old.length)
      else
        c :: pyReplaceAux old new fuel rest

/-- Python `s.replace(old, new)` for a non-empty pattern. -/
def pyReplace (s old new : String) : String :=
  String.mk (pyReplaceAux old.data new.data s.data.length s.data)

/-- Python `s.startswith(p)`. -/
def pyStartsWith (s p : String) : Bool :=
  p.data.isPrefixOf s.data

/-- Decimal digits to their value, most significant first; `none` on any
non-digit. -/
def pyDigitsAux : List Char → Nat → Option Nat
  | [], acc => some acc
  | c :: rest, acc =>
      if c.isDigit then pyDigitsAux rest (acc * 10 + (c.toNat - '0'.toNat))
      else none

/-- Python `int(s)` on decimal literals: surrounding whitespace allowed, an
optional sign, then at least one digit; `none` models a raised `ValueError`. -/
def pyInt (s : String) : Option Int :=
  match (pyStrip s).data with
  | [] => none
  | '-' :: [] => none
  | '-' :: d :: ds => (pyDigitsAux (d :: ds) 0).map (fun n => -(n : Int))
  | '+' :: [] => none
  | '+' :: d :: ds => (pyDigitsAux (d :: ds) 0).map (fun n => (n : Int))
  | ds => (pyDigitsAux ds 0).map (fun n => (n : Int))

/-! ### The shared `convert_batch` aggregation -/

/-- A Python dict update `d[k] = v`: replaces the value at the first (unique)
occurrence of `k`, keeping its position, or appends a fresh entry. -/
def dictInsert {α β : Type} [DecidableEq α] : List (α × β) → α → β → List (α × β)
  | [], k, v => [(k, v)]
  | (k', v') :: rest, k, v =>
      if k' = k then (k', v) :: rest else (k', v') :: dictInsert rest k v

/-- `d[k]` as an optional lookup: `some v` when the key is present with value
`v`, `none` when the key is absent. -/
def dictLookup {α β : Type} [DecidableEq α] : List (α × β) → α → Option β
  | [], _ => none
  | kv :: rest, k => if kv.1 = k then some kv.2 else dictLookup rest k

/-- The aggregation loop `for path, result in zip(paths, results):
output[path] = ...`, run over already-materialised `(path, value)` pairs. -/
def aggregate {α β : Type} [DecidableEq α] (pairs : List (α × β)) : List (α × β) :=
  pairs.foldl (fun d kv => dictInsert d kv.1 kv.2) []

/-- The `isinstance(result, Exception)` branch of the loop: an exception
becomes `None` (`none`), a returned string is stored as-is. -/
def toOutcome {ε : Type} (r : Except ε String) : Option String :=
  match r with
  | .ok s => some s
  | .error _ => none

/-- `convert_batch`: one conversion task per submitted path (duplicates
included), results zipped back with the paths and merged into the output
dict. -/
def convertBatch {α ε : Type} [DecidableEq α] (extract : α → Except ε String)
    (paths : List α) : List (α × Option String) :=
  aggregate (paths.map (fun p => (p, toOutcome (extract p))))

/-- `success_count = sum(1 for v in output.values() if v is not None)`. -/
def successCount {α : Type} (d : List (α × Option String)) : Nat :=
  (d.filter (fun kv => kv.2.isSome)).length

/-- Number of absent (`None`) entries of the output dict. -/
def failedCount {α : Type} (d : List (α × Option String)) : Nat :=
  (d.filter (fun kv => !kv.2.isSome)).length

/-- The value stored for `k` by the aggregation loop: the value of the last
pair whose key is `k` (last writer wins), if any. -/
def findLastVal {α β : Type} [DecidableEq α] : List (α × β) → α → Option β
  | [], _ => none
  | kv :: rest, k =>
      match findLastVal rest k with
      | some v => some v
      | none => if kv.1 = k then some kv.2 else none

/-!
### PDF converter (`simple_pdf_converter.py`)

`_convert_single` first calls `pdfminer_extract_text`; only when that
*returns* empty or whitespace-only text does it call `_extract_with_pypdf2`.
Any exception raised inside the `try` block (in particular, one raised by
pdfminer itself) falls through to the outer `except`, which re-raises an
`EntityProcessingError`.  `_extract_with_pypdf2` catches every exception of
its own body and returns `""`.

A `PdfFile` records the behaviour of the two external libraries on one file:
what `pdfminer.high_level.extract_text` does (returns text or raises), and
what iterating `PdfReader(...).pages` / `page.extract_text()` yields (the
list of per-page strings, or a raise anywhere in that body).
-/

deriving instance DecidableEq for Except

structure PdfFile where
  pdfminer : Except Unit String
  pypdf2 : Except Unit (List String)
deriving DecidableEq

/-- `_extract_with_pypdf2`: page texts tagged `--- Page N ---` (1-based,
falsy pages skipped), joined with blank lines; any exception is caught and
turned into `""`. -/
def extractWithPyPDF2 (f : PdfFile) : String :=
  match f.pypdf2 with
  | .error _ => ""
  | .ok pages =>
      pyJoin "\n\n"
        ((pages.enumFrom 1).filterMap
          (fun np =>
            if np.2 ≠ "" then some ("--- Page " ++ toString np.1 ++ " ---\n" ++ np.2)
            else none))

/-- `SimplePdfConverter._convert_single`, instrumented: the second component
records whether the PyPDF2 fallback was invoked.  `.error ()` stands for the
raised `EntityProcessingError`. -/
def pdfConvertSingleTraced (f : PdfFile) : Except Unit String × Bool :=
  match f.pdfminer with
  | .error _ => (.error (), false)
  | .ok t0 =>
      if t0 = "" ∨ pyStrip t0 = "" then
        let text := pyStrip (extractWithPyPDF2 f)
        if text = "" then (.ok "", true)
        else (.ok ("```\n" ++ text ++ "\n```"), true)
      else
        let text := pyStrip t0
        if text = "" then (.ok "", false)
        else (.ok ("```\n" ++ text ++ "\n```"), false)

/-- `SimplePdfConverter._convert_single` as seen by `convert_batch`. -/
def pdfConvertSingle (f : PdfFile) : Except Unit String :=
  (pdfConvertSingleTraced f).1

/-!
### DOCX converter (`simple_docx_converter.py`)
-/

structure DocxParagraph where
  text : String
  styleName : String
deriving DecidableEq

/-- A DOCX document: its paragraphs (text plus style name) and its tables
(rows of cell texts). -/
structure DocxDoc where
  paragraphs : List DocxParagraph
  tables : List (List (List String))
deriving DecidableEq

/-- The heading branch of the paragraph walk: styles named `Heading N`
render as `N` `#` characters, a space, then the text; a non-numeric suffix
leaves the text unchanged.  (`'#' * level_num` of a non-positive count is
the empty string, as in Python.) -/
def docxParagraphLine (styleName text : String) : String :=
  if pyStartsWith styleName "Heading" then
    match pyInt (pyReplace styleName "Heading " "") with
    | some levelNum => String.mk (List.replicate levelNum.toNat '#') ++ " " ++ text
    | none => text
  else text

/-- The paragraph loop: each paragraph's stripped text, skipped when empty. -/
def docxParagraphLines (ps : List DocxParagraph) : List String :=
  ps.filterMap (fun p =>
    if pyStrip p.text ≠ "" then some (docxParagraphLine p.styleName (pyStrip p.text))
    else none)

/-- The table loop body for one table: each row's cells stripped and joined
with `" | "`; a non-empty table contributes a `\n**Table:**` marker, the
header row, and — when data rows exist — a `---` separator sized by splitting
the header row on `" | "`, then the data rows. -/
def docxTableLines (rows : List (List String)) : List String :=
  let tableRows := rows.map (fun row => pyJoin " | " (row.map pyStrip))
  match tableRows with
  | [] => []
  | hd :: tl =>
      "\n**Table:**" :: hd ::
        (match tl with
         | [] => []
         | _ => (pyJoin " | " (List.replicate (pySplit hd " | ").length "---")) :: tl)

/-- The `extract()` closure of `SimpleDocxConverter._convert_single`:
paragraph lines, then every table's lines, joined with blank lines. -/
def docxExtract (d : DocxDoc) : String :=
  pyJoin "\n\n" (docxParagraphLines d.paragraphs ++ (d.tables.map docxTableLines).flatten)

/-- `SimpleDocxConverter._convert_single` on the non-raising path: empty or
whitespace-only extractions become `""`, otherwise the stripped text. -/
def docxConvertSingle (d : DocxDoc) : String :=
  let text := docxExtract d
  if text = "" ∨ pyStrip text = "" then "" else pyStrip text

/-!
### PPTX converter (`simple_pptx_converter.py`)

A shape is modelled by what the loop body reads from it: an optional `text`
attribute (absent when `hasattr(shape, "text")` is false) and an optional
table (absent when `shape.has_table` is false), whose rows are lists of cell
texts.
-/

structure PptxShape where
  text : Option String
  table : Option (List (List String))
deriving DecidableEq

/-- The body lines one shape contributes to its slide: the stripped shape
text (only when the raw text is truthy and the stripped text non-empty),
followed by every table row joined with `" | "` (rows are appended even when
all their cells are empty). -/
def shapeLines (sh : PptxShape) : List String :=
  (match sh.text with
   | some t =>
       if t ≠ "" then
         (if pyStrip t ≠ "" then [pyStrip t] else [])
       else []
   | none => []) ++
  (match sh.table with
   | some rows => rows.map (fun row => pyJoin " | " (row.map pyStrip))
   | none => [])

/-- All body lines of one slide, in shape order. -/
def slideBody (shapes : List PptxShape) : List String :=
  (shapes.map shapeLines).flatten

/-- The slide loop of the `extract()` closure: slide `n` (1-based over *all*
slides) starts from `["## Slide n"]`, collects its body lines, and is kept
only when something beyond the header was added; kept slides are rendered by
joining their lines with blank lines. -/
def pptxBlocks : Nat → List (List PptxShape) → List String
  | _, [] => []
  | n, shapes :: rest =>
      let slideContent := ("## Slide " ++ toString n) :: slideBody shapes
      if slideContent.length > 1 then
        (pyJoin "\n\n" slideContent) :: pptxBlocks (n + 1) rest
      else pptxBlocks (n + 1) rest

/-- The `extract()` closure of `SimplePptxConverter._convert_single`: kept
slide blocks joined with a `---` horizontal-rule separator. -/
def pptxExtract (slides : List (List PptxShape)) : String :=
  pyJoin "\n\n---\n\n" (pptxBlocks 1 slides)

/-- `SimplePptxConverter._convert_single` on the non-raising path. -/
def pptxConvertSingle (slides : List (List PptxShape)) : String :=
  let text := pptxExtract slides
  if text = "" ∨ pyStrip text = "" then "" else pyStrip text


/-! ### Lemmas about the output-dict aggregation -/

theorem dictLookup_nil {α β : Type} [DecidableEq α] (k : α) :
    dictLookup ([] : List (α × β)) k = none := rfl

theorem dictLookup_dictInsert {α β : Type} [DecidableEq α]
    (d : List (α × β)) (k : α) (v : β) (q : α) :
    dictLookup (dictInsert d k v) q = if q = k then some v else dictLookup d q := by
  induction d with
  | nil =>
      by_cases h : q = k
      · subst h; simp [dictInsert, dictLookup]
      · simp [dictInsert, dictLookup, h, Ne.symm h]
  | cons kv rest ih =>
      obtain ⟨ka, va⟩ := kv
      by_cases hka : ka = k
      · subst hka
        by_cases h : q = ka
        · subst h; simp [dictInsert, dictLookup]
        · simp [dictInsert, dictLookup, h, Ne.symm h]
      · by_cases h : ka = q
        · have hq : ¬ q = k := fun hh => hka (h.trans hh)
          simp [dictInsert, dictLookup, hka, h, hq]
        · simp [dictInsert, dictLookup, hka, h, ih]

theorem dictLookup_foldl {α β : Type} [DecidableEq α]
    (pairs : List (α × β)) (d : List (α × β)) (k : α) :
    dictLookup (pairs.foldl (fun acc kv => dictInsert acc kv.1 kv.2) d) k =
      match findLastVal pairs k with
      | some v => some v
      | none => dictLookup d k := by
  induction pairs generalizing d with
  | nil => simp [findLastVal]
  | cons kv rest ih =>
      simp only [List.foldl_cons]
      rw [ih]
      simp only [findLastVal]
      cases hrest : findLastVal rest k with
      | some v => rfl
      | none =>
          rw [dictLookup_dictInsert]
          by_cases h : kv.1 = k
          · simp [h]
          · simp [h, Ne.symm h]

/-- Last writer wins: the output dict stores, for each key, the value of the
last `(path, result)` pair carrying that key. -/
theorem dictLookup_aggregate {α β : Type} [DecidableEq α]
    (pairs : List (α × β)) (k : α) :
    dictLookup (aggregate pairs) k = findLastVal pairs k := by
  have h := dictLookup_foldl pairs [] k
  simp only [aggregate]
  rw [h]
  cases findLastVal pairs k <;> simp [dictLookup]

/-- When every pair is the graph of a function, the last value for `p` is
just `g p`, provided `p` occurs at all. -/
theorem findLastVal_map_graph {α β : Type} [DecidableEq α]
    (g : α → β) (paths : List α) (p : α) :
    findLastVal (paths.map (fun x => (x, g x))) p =
      if p ∈ paths then some (g p) else none := by
  induction paths with
  | nil => simp [findLastVal]
  | cons a rest ih =>
      simp only [List.map_cons, findLastVal, ih]
      by_cases hp : p ∈ rest
      · simp [hp]
      · by_cases ha : a = p
        · subst ha; simp [hp]
        · simp [hp, ha, List.mem_cons, Ne.symm ha]

theorem dictLookup_convertBatch {α ε : Type} [DecidableEq α]
    (extract : α → Except ε String) (paths : List α) (p : α) :
    dictLookup (convertBatch extract paths) p =
      if p ∈ paths then some (toOutcome (extract p)) else none := by
  simp only [convertBatch]
  rw [dictLookup_aggregate, findLastVal_map_graph]

/-- The keys of the output dict, in insertion order. -/
def dictKeys {α β : Type} (d : List (α × β)) : List α :=
  d.map (·.1)

theorem dictKeys_dictInsert {α β : Type} [DecidableEq α]
    (d : List (α × β)) (k : α) (v : β) :
    dictKeys (dictInsert d k v) =
      if k ∈ dictKeys d then dictKeys d else dictKeys d ++ [k] := by
  induction d with
  | nil => simp [dictInsert, dictKeys]
  | cons kv rest ih =>
      obtain ⟨ka, va⟩ := kv
      by_cases h : ka = k
      · subst h; simp [dictInsert, dictKeys]
      · simp only [dictInsert, if_neg h, dictKeys, List.map_cons] at ih ⊢
        rw [ih]
        by_cases hk : k ∈ rest.map (·.1)
        · simp [hk, Ne.symm h]
        · simp [hk, Ne.symm h]

theorem mem_dictKeys_dictInsert {α β : Type} [DecidableEq α]
    (d : List (α × β)) (k : α) (v : β) (q : α) :
    q ∈ dictKeys (dictInsert d k v) ↔ q ∈ dictKeys d ∨ q = k := by
  rw [dictKeys_dictInsert]
  by_cases h : k ∈ dictKeys d
  · simp only [if_pos h]
    exact ⟨Or.inl, fun c => c.elim id (fun hq => hq ▸ h)⟩
  · simp [if_neg h, List.mem_append]

theorem nodup_dictKeys_dictInsert {α β : Type} [DecidableEq α]
    (d : List (α × β)) (k : α) (v : β) (hd : (dictKeys d).Nodup) :
    (dictKeys (dictInsert d k v)).Nodup := by
  rw [dictKeys_dictInsert]
  by_cases h : k ∈ dictKeys d
  · simpa [if_pos h] using hd
  · simp [if_neg h, List.nodup_append, hd, h]

theorem mem_dictKeys_foldl {α β : Type} [DecidableEq α]
    (pairs : List (α × β)) (d : List (α × β)) (q : α) :
    q ∈ dictKeys (pairs.foldl (fun acc kv => dictInsert acc kv.1 kv.2) d) ↔
      q ∈ dictKeys d ∨ q ∈ pairs.map (·.1) := by
  induction pairs generalizing d with
  | nil => simp
  | cons kv rest ih =>
      simp only [List.foldl_cons, List.map_cons, List.mem_cons]
      rw [ih, mem_dictKeys_dictInsert]
      tauto

theorem nodup_dictKeys_foldl {α β : Type} [DecidableEq α]
    (pairs : List (α × β)) (d : List (α × β)) (hd : (dictKeys d).Nodup) :
    (dictKeys (pairs.foldl (fun acc kv => dictInsert acc kv.1 kv.2) d)).Nodup := by
  induction pairs generalizing d with
  | nil => exact hd
  | cons kv rest ih =>
      exact ih _ (nodup_dictKeys_dictInsert _ _ _ hd)

/-- The output dict never has a duplicated key. -/
theorem nodup_dictKeys_aggregate {α β : Type} [DecidableEq α]
    (pairs : List (α × β)) : (dictKeys (aggregate pairs)).Nodup :=
  nodup_dictKeys_foldl pairs [] (by simp [dictKeys])

/-- A key appears in the output dict iff some pair carries it. -/
theorem mem_dictKeys_aggregate {α β : Type} [DecidableEq α]
    (pairs : List (α × β)) (q : α) :
    q ∈ dictKeys (aggregate pairs) ↔ q ∈ pairs.map (·.1) := by
  rw [aggregate, mem_dictKeys_foldl]
  simp [dictKeys]

/-- The output dict of `convert_batch` has exactly one entry per distinct
submitted path. -/
theorem length_convertBatch {α ε : Type} [DecidableEq α]
    (extract : α → Except ε String) (paths : List α) :
    (convertBatch extract paths).length = paths.dedup.length := by
  have h1 : (dictKeys (convertBatch extract paths)).Nodup :=
    nodup_dictKeys_aggregate _
  have h2 : ∀ q, q ∈ dictKeys (convertBatch extract paths) ↔ q ∈ paths.dedup := by
    intro q
    rw [convertBatch, mem_dictKeys_aggregate, List.mem_dedup]
    simp
  have hperm := (List.perm_ext_iff_of_nodup h1 (List.nodup_dedup paths)).mpr h2
  calc (convertBatch extract paths).length
      = (dictKeys (convertBatch extract paths)).length := by simp [dictKeys]
    _ = paths.dedup.length := hperm.length_eq

/-- Every entry of the output dict is a present or absent value; the two
counters partition it. -/
theorem successCount_add_failedCount {α : Type} (d : List (α × Option String)) :
    successCount d + failedCount d = d.length := by
  simp only [successCount, failedCount]
  exact (List.length_eq_length_filter_add (l := d) (fun kv => kv.2.isSome)).symm

/-! ### Claim theorems -/

/-- Claim C1: `convert_batch` is a total function (it never raises: every
per-file exception is materialised by `gather(return_exceptions=True)` as an
`Except.error`), a failing file is recorded as an absent (`none`) entry, and
every other file's entry is exactly what it would be if the failing file were
not in the batch. -/
theorem convertBatch_failure_isolation {α ε : Type} [DecidableEq α]
    (extract : α → Except ε String) (paths : List α) (p : α) (e : ε)
    (hfail : extract p = .error e) :
    (p ∈ paths → dictLookup (convertBatch extract paths) p = some none) ∧
    (∀ q, q ≠ p →
      dictLookup (convertBatch extract paths) q =
        dictLookup (convertBatch extract (paths.filter (fun x => x ≠ p))) q) := by
  constructor
  · intro hp
    rw [dictLookup_convertBatch, if_pos hp, hfail]
    rfl
  · intro q hq
    rw [dictLookup_convertBatch, dictLookup_convertBatch]
    by_cases hqmem : q ∈ paths
    · have hqf : q ∈ paths.filter (fun x => x ≠ p) :=
        List.mem_filter.mpr ⟨hqmem, by simp [hq]⟩
      rw [if_pos hqmem, if_pos hqf]
    · have hqf : q ∉ paths.filter (fun x => x ≠ p) :=
        fun hc => hqmem (List.mem_filter.mp hc).1
      rw [if_neg hqmem, if_neg hqf]

/-- Witness for C1 on a concrete two-file batch where file `0` raises. -/
theorem convertBatch_failure_isolation_witness :
    ((fun n : Nat => if n = 0 then (.error () : Except Unit String) else .ok "hi") 0
        = .error ()) ∧
    ((0 ∈ [0, 1] →
        dictLookup
          (convertBatch
            (fun n : Nat => if n = 0 then (.error () : Except Unit String) else .ok "hi")
            [0, 1]) 0 = some none) ∧
      (∀ q, q ≠ 0 →
        dictLookup
          (convertBatch
            (fun n : Nat => if n = 0 then (.error () : Except Unit String) else .ok "hi")
            [0, 1]) q =
          dictLookup
            (convertBatch
              (fun n : Nat => if n = 0 then (.error () : Except Unit String) else .ok "hi")
              ([0, 1].filter (fun x => x ≠ 0))) q)) :=
  ⟨rfl, convertBatch_failure_isolation _ [0, 1] 0 () rfl⟩

/-- Claim C2: the output dict of `convert_batch` has pairwise-distinct keys,
its keys are exactly the submitted paths, its size is the number of distinct
submitted paths, and the aggregation loop gives each key the value of the
last pair carrying it (last writer wins). -/
theorem convertBatch_one_entry_per_identity {α ε : Type} [DecidableEq α]
    (extract : α → Except ε String) (paths : List α) :
    (dictKeys (convertBatch extract paths)).Nodup ∧
    (∀ q, q ∈ dictKeys (convertBatch extract paths) ↔ q ∈ paths) ∧
    (convertBatch extract paths).length = paths.dedup.length ∧
    (∀ (pairs : List (α × Option String)) (k : α),
      dictLookup (aggregate pairs) k = findLastVal pairs k) := by
  refine ⟨nodup_dictKeys_aggregate _, ?_, length_convertBatch extract paths,
    fun pairs k => dictLookup_aggregate pairs k⟩
  intro q
  rw [convertBatch, mem_dictKeys_aggregate]
  simp

/-- Claim C5 counterexample: with a duplicated path, `succeeded + failed`
counts the collapsed dict entries, not the submitted list: one path submitted
twice gives `1 + 0 ≠ 2 = len(paths)`. -/
theorem convertBatch_counts_counterexample :
    ¬ (successCount (convertBatch (fun _ : Nat => (.ok "x" : Except Unit String)) [0, 0]) +
        failedCount (convertBatch (fun _ : Nat => (.ok "x" : Except Unit String)) [0, 0]) =
        ([0, 0] : List Nat).length) := by decide

/-- Claim C5 (amended): after every `convert_batch` call,
`succeeded + failed` equals the number of *distinct* submitted identities
(the size of the output dict); it equals `len(identities)` when the
submitted list has no duplicates. -/
theorem convertBatch_counts {α ε : Type} [DecidableEq α]
    (extract : α → Except ε String) (paths : List α) :
    (successCount (convertBatch extract paths) + failedCount (convertBatch extract paths) =
      paths.dedup.length) ∧
    (paths.Nodup →
      successCount (convertBatch extract paths) + failedCount (convertBatch extract paths) =
        paths.length) := by
  have h := successCount_add_failedCount (convertBatch extract paths)
  rw [length_convertBatch] at h
  exact ⟨h, fun hn => by rw [h, List.Nodup.dedup hn]⟩

/-- Witness for C5 (amended) on a concrete duplicate-free batch. -/
theorem convertBatch_counts_witness :
    ([0, 1] : List Nat).Nodup ∧
    successCount (convertBatch (fun _ : Nat => (.ok "x" : Except Unit String)) [0, 1]) +
      failedCount (convertBatch (fun _ : Nat => (.ok "x" : Except Unit String)) [0, 1]) =
      ([0, 1] : List Nat).length :=
  ⟨by decide, (convertBatch_counts (fun _ : Nat => (.ok "x" : Except Unit String)) [0, 1]).2
    (by decide)⟩

/-- Claim C6: when pdfminer returns text whose strip is non-empty, the PyPDF2
fallback is never invoked and the result is the stripped primary text wrapped
in a fenced code block. -/
theorem pdf_primary_short_circuit (f : PdfFile) (t : String)
    (hmin : f.pdfminer = .ok t) (hts : pyStrip t ≠ "") :
    pdfConvertSingleTraced f = (.ok ("```\n" ++ pyStrip t ++ "\n```"), false) := by
  have ht : ¬(t = "" ∨ pyStrip t = "") := by
    rintro (rfl | h)
    · exact hts rfl
    · exact hts h
  simp only [pdfConvertSingleTraced, hmin]
  rw [if_neg ht]
  simp [hts]

/-- Witness for C6 on a concrete file whose primary extraction returns
`"hi"`; the fallback pages are never consulted. -/
theorem pdf_primary_short_circuit_witness :
    pyStrip "hi" ≠ "" ∧
    pdfConvertSingleTraced ⟨.ok "hi", .ok ["page"]⟩ =
      (.ok ("```\n" ++ pyStrip "hi" ++ "\n```"), false) :=
  ⟨by decide, pdf_primary_short_circuit ⟨.ok "hi", .ok ["page"]⟩ "hi" rfl (by decide)⟩

/-- Claim C7: a PDF whose primary extraction is whitespace-only and whose
fallback extraction returns empty text is mapped to a present empty string
(`some (some "")`), not an absent entry, and it counts as succeeded. -/
theorem pdf_empty_is_success (f : PdfFile) (t : String)
    (hmin : f.pdfminer = .ok t) (hws : pyStrip t = "")
    (hfb : extractWithPyPDF2 f = "") :
    pdfConvertSingle f = .ok "" ∧
    dictLookup (convertBatch pdfConvertSingle [f]) f = some (some "") ∧
    successCount (convertBatch pdfConvertSingle [f]) = 1 ∧
    failedCount (convertBatch pdfConvertSingle [f]) = 0 := by
  have hps : pyStrip "" = "" := rfl
  have h1 : pdfConvertSingle f = .ok "" := by
    simp [pdfConvertSingle, pdfConvertSingleTraced, hmin, hws, hfb, hps]
  refine ⟨h1, ?_, ?_, ?_⟩
  · simp [convertBatch, aggregate, dictInsert, dictLookup, toOutcome, h1]
  · simp [convertBatch, aggregate, dictInsert, successCount, toOutcome, h1]
  · simp [convertBatch, aggregate, dictInsert, failedCount, toOutcome, h1]

/-- Witness for C7: primary returns a single space, fallback sees a reader
with no pages. -/
theorem pdf_empty_is_success_witness :
    (PdfFile.mk (.ok " ") (.ok [])).pdfminer = .ok " " ∧
    pyStrip " " = "" ∧
    extractWithPyPDF2 ⟨.ok " ", .ok []⟩ = "" ∧
    (pdfConvertSingle ⟨.ok " ", .ok []⟩ = .ok "" ∧
      dictLookup (convertBatch pdfConvertSingle [⟨.ok " ", .ok []⟩]) ⟨.ok " ", .ok []⟩ =
        some (some "") ∧
      successCount (convertBatch pdfConvertSingle [⟨.ok " ", .ok []⟩]) = 1 ∧
      failedCount (convertBatch pdfConvertSingle [⟨.ok " ", .ok []⟩]) = 0) :=
  ⟨rfl, by decide, rfl, pdf_empty_is_success ⟨.ok " ", .ok []⟩ " " rfl (by decide) rfl⟩

/-- Claim C3 counterexample: (a) when pdfminer raises, the PyPDF2 fallback is
*not* attempted (the trace flag stays `false`) even though usable pages
exist; (b) when pdfminer returns whitespace and the fallback raises, the
outcome is `present("")`, not a `Failure`. -/
theorem pdf_chain_continue_counterexample :
    pdfConvertSingleTraced ⟨.error (), .ok ["usable page text"]⟩ = (.error (), false) ∧
    pdfConvertSingleTraced ⟨.ok "   ", .error ()⟩ = (.ok "", true) := by
  constructor
  · rfl
  · decide

/-- Claim C3 (amended): when pdfminer raises, the fallback is skipped and the
outcome is `Failure` (an `EntityProcessingError` captured as an absent
entry); the fallback runs only when pdfminer *returns* empty/whitespace text,
and when the fallback itself raises, its exception is swallowed
(`return ""`), making the outcome `present("")` — an Empty success, not a
Failure. -/
theorem pdf_chain_behaviour (f : PdfFile) (t : String) :
    (∀ e, f.pdfminer = .error e →
      pdfConvertSingleTraced f = (.error (), false)) ∧
    (f.pdfminer = .ok t → pyStrip t = "" → f.pypdf2 = .error () →
      pdfConvertSingleTraced f = (.ok "", true)) := by
  constructor
  · intro e he
    simp [pdfConvertSingleTraced, he]
  · intro hok hws hraise
    have hfb : extractWithPyPDF2 f = "" := by simp [extractWithPyPDF2, hraise]
    have hps : pyStrip "" = "" := rfl
    simp [pdfConvertSingleTraced, hok, hws, hfb, hps]

/-- Witness for C3 (amended) at the two concrete files of the
counterexample. -/
theorem pdf_chain_behaviour_witness :
    (pdfConvertSingleTraced ⟨.error (), .ok ["usable"]⟩ = (.error (), false)) ∧
    (pdfConvertSingleTraced ⟨.ok " ", .error ()⟩ = (.ok "", true)) :=
  ⟨(pdf_chain_behaviour ⟨.error (), .ok ["usable"]⟩ "").1 () rfl,
   (pdf_chain_behaviour ⟨.ok " ", .error ()⟩ " ").2 rfl (by decide) rfl⟩

/-- A slide with an empty body is dropped: it contributes no block, while the
slide counter still advances. -/
theorem pptxBlocks_cons_empty (n : Nat) (shapes : List PptxShape)
    (rest : List (List PptxShape)) (h : slideBody shapes = []) :
    pptxBlocks n (shapes :: rest) = pptxBlocks (n + 1) rest := by
  simp [pptxBlocks, h]

/-- A slide with a non-empty body contributes one block headed by
`## Slide n`, where `n` is its original 1-based position. -/
theorem pptxBlocks_cons_content (n : Nat) (shapes : List PptxShape)
    (rest : List (List PptxShape)) (h : slideBody shapes ≠ []) :
    pptxBlocks n (shapes :: rest) =
      (pyJoin "\n\n" (("## Slide " ++ toString n) :: slideBody shapes)) ::
        pptxBlocks (n + 1) rest := by
  have hlen : (("## Slide " ++ toString n) :: slideBody shapes).length > 1 := by
    simp only [List.length_cons, gt_iff_lt, Nat.lt_add_one_iff]
    exact Nat.succ_le_of_lt (List.length_pos.mpr h)
  simp [pptxBlocks, hlen, h]

/-- A prefix of body-less slides is dropped wholesale; the counter advances
past all of them. -/
theorem pptxBlocks_drop_empty_slides (n : Nat) (pre rest : List (List PptxShape))
    (h : ∀ s ∈ pre, slideBody s = []) :
    pptxBlocks n (pre ++ rest) = pptxBlocks (n + pre.length) rest := by
  induction pre generalizing n with
  | nil => simp
  | cons s pre ih =>
      rw [List.cons_append, pptxBlocks_cons_empty n s (pre ++ rest) (h s (List.mem_cons_self s pre))]
      rw [ih (n + 1) (fun x hx => h x (List.mem_cons_of_mem s hx))]
      congr 1
      simp only [List.length_cons]
      omega

/-- Claim C4 counterexample: for a document whose only content is the table
with header `["A","B"]` and data row `["1","2"]`, the rendered text is *not*
the claimed `"**Table:**\nA | B\n--- | ---\n1 | 2"` — the extractor joins
its collected lines with `"\n\n"`, so the rows are separated by blank
lines. -/
theorem docx_table_rendering_counterexample :
    docxConvertSingle ⟨[], [[["A", "B"], ["1", "2"]]]⟩ ≠
      "**Table:**\nA | B\n--- | ---\n1 | 2" := by decide

/-- Claim C4 (amended): the table renders as a `**Table:**` marker (appended
with a leading newline), the pipe-delimited header row, a separator row with
one `---` per header column, then the data rows — but the collected lines
are joined with `"\n\n"` (blank lines), not `"\n"`; for the header/data
example, the whole-document render (after the final strip removes the
marker's leading newline) is
`"**Table:**\n\nA | B\n\n--- | ---\n\n1 | 2"`. -/
theorem docx_table_rendering :
    docxTableLines [["A", "B"], ["1", "2"]] =
      ["\n**Table:**", "A | B", "--- | ---", "1 | 2"] ∧
    docxConvertSingle ⟨[], [[["A", "B"], ["1", "2"]]]⟩ =
      "**Table:**\n\nA | B\n\n--- | ---\n\n1 | 2" := by
  constructor
  · decide
  · decide

/-- Claim C8: a slide whose body is empty (no kept shape text, no table
rows) contributes no block at all; kept blocks are joined with the
`\n\n---\n\n` horizontal-rule separator; the two-slide document
`[empty, "Hello"]` yields the single block `"## Slide 2\n\nHello"` with no
separator. -/
theorem pptx_empty_slide_dropped :
    (∀ (n : Nat) (shapes : List PptxShape) (rest : List (List PptxShape)),
        slideBody shapes = [] → pptxBlocks n (shapes :: rest) = pptxBlocks (n + 1) rest) ∧
    pptxConvertSingle [[], [⟨some "Hello", none⟩]] = "## Slide 2\n\nHello" ∧
    pptxConvertSingle [[⟨some "Hi", none⟩], [⟨some "Yo", none⟩]] =
      "## Slide 1\n\nHi\n\n---\n\n## Slide 2\n\nYo" :=
  ⟨pptxBlocks_cons_empty, by decide, by decide⟩

/-- Witness for C8: the shapeless slide is dropped in a concrete two-slide
document. -/
theorem pptx_empty_slide_dropped_witness :
    slideBody [] = ([] : List String) ∧
    pptxBlocks 1 [[], [⟨some "Hello", none⟩]] = pptxBlocks 2 [[⟨some "Hello", none⟩]] :=
  ⟨rfl, pptx_empty_slide_dropped.1 1 [] [[⟨some "Hello", none⟩]] rfl⟩

/-- Claim C10: slide headers use the slide's original 1-based position —
dropped content-free slides still advance the counter, kept slides render
`## Slide n` from their source position, and a document whose first two
slides are empty starts at `## Slide 3` and contains no `## Slide 1`. -/
theorem pptx_numbering_original_position :
    (∀ (n : Nat) (pre rest : List (List PptxShape)),
        (∀ s ∈ pre, slideBody s = []) →
        pptxBlocks n (pre ++ rest) = pptxBlocks (n + pre.length) rest) ∧
    (∀ (n : Nat) (shapes : List PptxShape) (rest : List (List PptxShape)),
        slideBody shapes ≠ [] →
        pptxBlocks n (shapes :: rest) =
          (pyJoin "\n\n" (("## Slide " ++ toString n) :: slideBody shapes)) ::
            pptxBlocks (n + 1) rest) ∧
    pptxConvertSingle [[], [], [⟨some "Hello", none⟩]] = "## Slide 3\n\nHello" ∧
    ¬ ("## Slide 1".data <:+: "## Slide 3\n\nHello".data) :=
  ⟨pptxBlocks_drop_empty_slides, pptxBlocks_cons_content, by decide, by decide⟩

/-- Witness for C10: two empty slides shift the numbering of the concrete
three-slide document. -/
theorem pptx_numbering_original_position_witness :
    (∀ s ∈ [[], []] , slideBody s = ([] : List String)) ∧
    pptxBlocks 1 ([[], []] ++ [[⟨some "Hello", none⟩]]) =
      pptxBlocks 3 [[⟨some "Hello", none⟩]] ∧
    slideBody [⟨some "Hello", none⟩] ≠ [] ∧
    pptxBlocks 3 [[⟨some "Hello", none⟩]] =
      [pyJoin "\n\n" ["## Slide 3", "Hello"]] :=
  ⟨by decide,
   pptx_numbering_original_position.1 1 [[], []] [[⟨some "Hello", none⟩]] (by decide),
   by decide,
   pptx_numbering_original_position.2.1 3 [⟨some "Hello", none⟩] [] (by decide)⟩
